import Mathlib

/-!
Shallow embedding of the producer/consumer pipeline of cpp-senders-example:
the blocking and timeout buffering ranges, the gated producer range, the
on-demand ranges, the callback-to-sender bridge and the mock hardware decoder,
together with theorems about the spec's claims on them.
-/

/-- Shared state of producer_range (src/unnamed/part_004:18-31) and of
buffering_range (src/unnamed/part_004:154-165, src/ex02/buffering_range.hpp:13-24):
the FIFO `std::queue<T> buffer_` (head of the list = front of the queue) and the
`finished_` flag, both guarded by one mutex in the source. -/
structure Channel (α : Type) where
  buffer : List α
  finished : Bool
  deriving DecidableEq

/-- A channel as freshly constructed: empty queue, `finished_ = false`. -/
def emptyChan {α : Type} : Channel α := ⟨[], false⟩

/-- producer_range::add (src/unnamed/part_004:33-40): under the lock, push the
item only when `finished_` is not set. -/
def addItem {α : Type} (c : Channel α) (x : α) : Channel α :=
  if c.finished then c else { c with buffer := c.buffer ++ [x] }

/-- buffering_range::write (src/unnamed/part_004:167-172 and
src/ex02/buffering_range.hpp:26-31): push unconditionally, with no check of
`finished_`. -/
def writeItem {α : Type} (c : Channel α) (x : α) : Channel α :=
  { c with buffer := c.buffer ++ [x] }

/-- producer_range::finish / buffering_range::finish
(src/unnamed/part_004:119-123 and 251-255): set `finished_` and notify. -/
def finishChan {α : Type} (c : Channel α) : Channel α :=
  { c with finished := true }

/-- One blocking read, iterator::operator++ of the blocking variants
(src/unnamed/part_004:70-86 and 203-218): `cv_.wait` until
`!buffer_.empty() || finished_`; a read that would wait forever on an empty open
channel is `none` (the caller stays suspended); otherwise the result is the new
`current_` (the popped head, or reset to empty once drained and finished) paired
with the channel after the pop. -/
def readStep {α : Type} (c : Channel α) : Option (Option α × Channel α) :=
  match c.buffer with
  | x :: rest => some (some x, { c with buffer := rest })
  | [] => if c.finished then some (none, c) else none

/-- Trace of a reader that keeps invoking the read operation: the `current_`
values over `n` successive reads; the trace stops early if a read suspends. -/
def observeN {α : Type} : Channel α → Nat → List (Option α)
  | _, 0 => []
  | c, n + 1 =>
    match readStep c with
    | some (r, c') => r :: observeN c' n
    | none => []

/-- Continuation of the consumer range-for loop after `begin()`: while the
sentinel comparison `it == default_sentinel` (src/unnamed/part_004:98-101 and
230-233), which returns `finished_` alone, is false, yield `*current_` and run
operator++. Fuel bounds the number of loop tests; a read that would suspend ends
the trace with the reader blocked. -/
def readerLoopFrom {α : Type} : Option α → Channel α → Nat → List α
  | _, _, 0 => []
  | cur, c, fuel + 1 =>
    if c.finished then []
    else
      match cur with
      | none => []
      | some x =>
        match readStep c with
        | some (cur', c') => x :: readerLoopFrom cur' c' fuel
        | none => [x]

/-- The consumer reader loop over the range protocol: `begin()` runs operator++
once to load the first item (src/unnamed/part_004:56-59), then the loop of
`readerLoopFrom` runs. -/
def readerLoop {α : Type} (c : Channel α) (fuel : Nat) : List α :=
  match readStep c with
  | some (cur, c') => readerLoopFrom cur c' fuel
  | none => []

/-- One read of the timeout variant, iterator::operator++ of
src/ex02/buffering_range.hpp:65-88: `cv_.wait_for(lock, 100ms, pred)` with
`pred = !buffer_.empty() || finished_`. `c` is the channel state when the wait
returns and `timedOut` records a timeout return (the predicate still false, so
the buffer is empty and the channel open at that moment); on timeout the
iterator sets `at_end_` and resets `current_`. Result is
`(current_, at_end_, channel)`. -/
def readStepTimeout {α : Type} (c : Channel α) (timedOut : Bool) :
    Option α × Bool × Channel α :=
  if timedOut then (none, true, c)
  else
    match c.buffer with
    | x :: rest => (some x, false, { c with buffer := rest })
    | [] => (none, true, c)

/-- The repeat_effect_until loop counter of the producer: each loop body
execution (gate, fetch, write) ends by evaluating `--count == 0`
(src/ex02/main.cpp:44-46, src/unnamed/part_000:140-144) and the loop repeats
while that is false. Fuel bounds the number of body executions; the result is
the number of body executions when the loop terminates within the fuel, `none`
otherwise. `count` is the C++ `int count`, exact integer arithmetic here. -/
def repeatUntilZero : Nat → Int → Option Nat
  | 0, _ => none
  | fuel + 1, count =>
    if count - 1 = 0 then some 1
    else (repeatUntilZero fuel (count - 1)).map (fun k => k + 1)

/-- The ex02 backpressure gate (src/ex02/main.cpp:23-26): the gate is open while
fewer than `K` items are buffered. -/
def writeGate {α : Type} (K : Nat) (buf : List α) : Bool :=
  decide (buf.length < K)

/-- The effect of one consumer pop on the shared channel state (the pop inside
iterator::operator++, src/unnamed/part_004:77-80); a blocked consumer leaves the
state unchanged. -/
def consumeStep {α : Type} (c : Channel α) : Channel α :=
  match c.buffer with
  | [] => c
  | _ :: rest => { c with buffer := rest }

/-- Events of the ex02 pipeline acting on the shared channel: a gated producer
write, a consumer pop, and a close. -/
inductive PCEvent (α : Type) where
  | write (x : α)
  | consume
  | close

/-- One scheduler step of the ex02 pipeline. A producer write first awaits
producer_range::async_write_gate (src/unnamed/part_004:125-130: wait until
`write_gate_(buffer_) || finished_`) and then runs add (src/unnamed/part_004:33-40);
a write whose gate is still closed leaves the state unchanged (the producer
stays blocked on the condition variable). -/
def pcStep {α : Type} (K : Nat) (c : Channel α) : PCEvent α → Channel α
  | .write x => if writeGate K c.buffer || c.finished then addItem c x else c
  | .consume => consumeStep c
  | .close => finishChan c

/-- The channel state after a sequence of pipeline events starting from the
freshly constructed channel of src/ex02/main.cpp:24-26. -/
def runPC {α : Type} (K : Nat) (evs : List (PCEvent α)) : Channel α :=
  List.foldl (pcStep K) emptyChan evs

/-- Cursor of the on-demand ranges: `current_` plus an instrumentation counter
of how many times the item-provider sender (fetchNext) has been awaited. -/
structure OndemandIter (α : Type) where
  current : Option α
  fetches : Nat
  deriving DecidableEq

/-- move_iterator::operator++ of the until-predicate on-demand variant
(src/unnamed/part_002:295-301): await the until predicate; if it is true, return
with no fetch and the cursor unchanged; otherwise await the provider once and
store the item in `current_`. `pred` is the awaited predicate value and `x` the
item the provider would deliver. -/
def moveAdvance {α : Type} (pred : Bool) (x : α) (it : OndemandIter α) :
    OndemandIter α :=
  if pred then it else { current := some x, fetches := it.fetches + 1 }

/-- k successive advances of the until-predicate variant under the same awaited
predicate value. -/
def moveAdvanceRep {α : Type} (pred : Bool) (x : α) :
    Nat → OndemandIter α → OndemandIter α
  | 0, it => it
  | k + 1, it => moveAdvanceRep pred x k (moveAdvance pred x it)

/-- iterator::operator++ of the ex02 on-demand range
(src/ex02/ondemand_range.hpp:64-67): awaits the provider unconditionally. The
range's `finished_` flag is read only by the sentinel comparison (lines 79-81),
never by operator++, so the `finished` argument records the flag's value at
advance time and is ignored by the advance itself, as in the source. -/
def ondemandAdvance {α : Type} (_finished : Bool) (x : α) (it : OndemandIter α) :
    OndemandIter α :=
  { current := some x, fetches := it.fetches + 1 }

/-- Observable history of completions crossing the callback bridge: the values
delivered by `stdexec::set_value` on the op-state receiver, and the number of
ProtocolViolation errors ever raised (decode_frame_op_state has no raising path
at all, so no operation ever increments it). -/
structure BridgeObs (α : Type) where
  completions : List α
  violations : Nat
  deriving DecidableEq

/-- decode_frame_op_state::on_frame (src/ex02/decoder.hpp:59-62): the C-style
callback unconditionally delivers the frame to the receiver via set_value; no
already-completed flag is consulted or set, and nothing is raised. -/
def onFrame {α : Type} (frame : α) (s : BridgeObs α) : BridgeObs α :=
  { s with completions := s.completions ++ [frame] }

/-- The observable history after a list of callback invocations, in order. -/
def runCallbacks {α : Type} (frames : List α) (s : BridgeObs α) : BridgeObs α :=
  List.foldl (fun t f => onFrame f t) s frames

/-- hw_frame (src/ex02/decoder.hpp:11-14): an index plus four bytes of contrived
frame data (stored in a vector of int32_t). -/
structure Frame where
  index : Nat
  data : List Nat
  deriving DecidableEq

/-- hw_decoder state: the running `index` counter (src/ex02/decoder.hpp:49). -/
structure DecoderState where
  index : Nat
  deriving DecidableEq

/-- The work hw_decoder::decode_next_frame schedules on its
single_thread_context (src/ex02/decoder.hpp:26-41): `uint8_t offset = index*4`
(the conversion keeps the value mod 256), frame
`{ index: index++, data: {offset++, offset++, offset++, offset++} }` (each
`offset++` yields the current byte, then wraps mod 256), then exactly one
invocation of the registered callback with that frame. The int arithmetic is
modeled exactly on its overflow-free range. -/
def decodeNextFrame (d : DecoderState) : DecoderState × Frame :=
  let off := 4 * d.index % 256
  (⟨d.index + 1⟩,
   ⟨d.index, [off, (off + 1) % 256, (off + 2) % 256, (off + 3) % 256]⟩)

/-- The decoder state after n decode_next_frame invocations. -/
def decodeIter : Nat → DecoderState → DecoderState
  | 0, d => d
  | n + 1, d => decodeIter n (decodeNextFrame d).1

/-- Frame delivered by the n-th decode_next_frame invocation (counting from 0)
on a fresh decoder. -/
def nthFrame (n : Nat) : Frame :=
  (decodeNextFrame (decodeIter n ⟨0⟩)).2

/-- Frames delivered by n successive decode_next_frame initiations, in the
order the single_thread_context runs them (its run loop executes the spawned
tasks in submission order). -/
def initiateAll : Nat → DecoderState → List Frame
  | 0, _ => []
  | n + 1, d => (decodeNextFrame d).2 :: initiateAll n (decodeNextFrame d).1

/-- iterator operator== of producer_range (src/unnamed/part_004:104-108) and of
ondemand_range (src/ex02/ondemand_range.hpp:84-87, src/unnamed/part_002:319-322):
`lhs.parent_ == rhs.parent_ && (!lhs.current_ && !rhs.current_) || *lhs.current_ == *rhs.current_`.
Since `&&` binds tighter than `||` and both operators short-circuit, whenever the
left disjunct is false both optionals are dereferenced; dereferencing an empty
`std::optional` is undefined behavior, modeled as `none`. The parent ranges are
modeled by their addresses. -/
def iterEq (pl pr : Nat) (cl cr : Option Nat) : Option Bool :=
  if pl = pr ∧ cl = none ∧ cr = none then some true
  else
    match cl, cr with
    | some a, some b => some (decide (a = b))
    | _, _ => none

/-- iterator operator== of the ex02 timeout buffering_range
(src/ex02/buffering_range.hpp:105-112), whose left disjunct also compares the
`at_end_` flags (the local redeclarations on lines 107-108 are unused). -/
def bufIterEq (pl pr : Nat) (al ar : Bool) (cl cr : Option Nat) : Option Bool :=
  if pl = pr ∧ al = ar ∧ cl = none ∧ cr = none then some true
  else
    match cl, cr with
    | some a, some b => some (decide (a = b))
    | _, _ => none

/-! Helper lemmas. -/

theorem foldl_writeItem (items : List Nat) (bs : List Nat) :
    List.foldl writeItem ⟨bs, false⟩ items = ⟨bs ++ items, false⟩ := by
  induction items generalizing bs with
  | nil => simp
  | cons x xs ih =>
    rw [List.foldl_cons]
    show List.foldl writeItem ⟨bs ++ [x], false⟩ xs = _
    rw [ih]
    simp

theorem observeN_end (k : Nat) :
    observeN (⟨[], true⟩ : Channel Nat) k = List.replicate k none := by
  induction k with
  | zero => rfl
  | succ k ih => simp [observeN, readStep, ih, List.replicate_succ]

theorem observeN_closed (items : List Nat) (k : Nat) :
    observeN (⟨items, true⟩ : Channel Nat) (items.length + k)
      = items.map some ++ List.replicate k none := by
  induction items with
  | nil => simpa using observeN_end k
  | cons x xs ih =>
    have h : (x :: xs).length + k = (xs.length + k) + 1 := by
      simp [List.length_cons]; omega
    rw [h]
    simp [observeN, readStep, ih]

theorem repeatUntilZero_none_of_lt (fuel : Nat) :
    ∀ count : Int, (fuel : Int) < count → repeatUntilZero fuel count = none := by
  induction fuel with
  | zero => intro count h; rfl
  | succ m ih =>
    intro count h
    have h1 : ¬(count - 1 = 0) := by omega
    have h2 : (m : Int) < count - 1 := by push_cast at h ⊢; omega
    simp [repeatUntilZero, h1, ih (count - 1) h2]

theorem repeatUntilZero_exact (m : Nat) :
    repeatUntilZero (m + 1) ((m + 1 : Nat) : Int) = some (m + 1) := by
  induction m with
  | zero => simp [repeatUntilZero]
  | succ p ih =>
    have h1 : ¬(((p + 1 + 1 : Nat) : Int) - 1 = 0) := by push_cast; omega
    have h2 : ((p + 1 + 1 : Nat) : Int) - 1 = ((p + 1 : Nat) : Int) := by
      push_cast; ring
    rw [repeatUntilZero, if_neg h1, h2, ih]
    rfl

theorem pcStep_length_le (K : Nat) (c : Channel Nat) (e : PCEvent Nat)
    (h : c.buffer.length ≤ K) : (pcStep K c e).buffer.length ≤ K := by
  obtain ⟨buf, fin⟩ := c
  cases e with
  | write x =>
    cases fin with
    | true => simpa [pcStep, addItem] using h
    | false =>
      by_cases hg : buf.length < K
      · simp only [pcStep, writeGate] at *
        simp [hg, addItem]
        omega
      · simp only [pcStep, writeGate] at *
        simp [hg]
        exact h
  | consume =>
    cases buf with
    | nil => simp [pcStep, consumeStep]
    | cons y ys =>
      simp only [pcStep, consumeStep] at *
      simp at h ⊢
      omega
  | close => simpa [pcStep, finishChan] using h

theorem runPC_length_le (K : Nat) (evs : List (PCEvent Nat)) (c : Channel Nat)
    (h : c.buffer.length ≤ K) :
    (List.foldl (pcStep K) c evs).buffer.length ≤ K := by
  induction evs generalizing c with
  | nil => simpa using h
  | cons e rest ih => exact ih _ (pcStep_length_le K c e h)

theorem runCallbacks_spec {α : Type} (frames : List α) (s : BridgeObs α) :
    runCallbacks frames s
      = ⟨s.completions ++ frames, s.violations⟩ := by
  induction frames generalizing s with
  | nil => simp [runCallbacks]
  | cons f fs ih =>
    simp only [runCallbacks, List.foldl_cons] at *
    rw [ih]
    simp [onFrame]

theorem initiateAll_length (n : Nat) :
    ∀ d : DecoderState, (initiateAll n d).length = n := by
  induction n with
  | zero => intro d; rfl
  | succ m ih => intro d; simp [initiateAll, ih]

theorem decodeIter_index (n : Nat) :
    ∀ d : DecoderState, (decodeIter n d).index = d.index + n := by
  induction n with
  | zero => intro d; simp [decodeIter]
  | succ m ih =>
    intro d
    simp [decodeIter, decodeNextFrame, ih]
    omega

theorem initiateAll_map_index (n : Nat) :
    ∀ d : DecoderState,
      (initiateAll n d).map Frame.index = List.range' d.index n := by
  induction n with
  | zero => intro d; rfl
  | succ m ih =>
    intro d
    simp [initiateAll, decodeNextFrame, ih, List.range']

theorem moveAdvanceRep_true {α : Type} (x : α) (k : Nat) (it : OndemandIter α) :
    moveAdvanceRep true x k it = it := by
  induction k generalizing it with
  | zero => rfl
  | succ m ih => simpa [moveAdvanceRep, moveAdvance] using ih it

/-! Claim theorems. -/

/-- C1 counterexample. The claim says a reader observes exactly the written
items after a close, never End with an item still buffered. Here one item is
written, the channel is closed, and only then does the reader start: `begin()`
loads the item into `current_`, but the very first sentinel comparison returns
`finished_ = true`, so the loop ends having yielded nothing, with the written
item dropped. -/
theorem c1_reader_loop_drops_closed_buffer :
    readerLoop (finishChan (writeItem (emptyChan : Channel Nat) 5)) 2 = []
      ∧ ([] : List Nat) ≠ [5] := by decide

/-- C1 amended theorem. After N writes followed by a single close, the
successive read operations (iterator operator++) observe exactly those N items
in write order and then End repeatably; and a read never reports End while an
item is still buffered (readStep yields an empty `current_` only on an empty
buffer). -/
theorem c1_reads_observe_writes_in_order (items : List Nat) (k : Nat)
    (c c' : Channel Nat) (h : readStep c = some (none, c')) :
    observeN (finishChan (List.foldl writeItem emptyChan items))
        (items.length + k)
      = items.map some ++ List.replicate k none
      ∧ c.buffer = [] := by
  constructor
  · have h1 : List.foldl writeItem (emptyChan : Channel Nat) items
        = ⟨items, false⟩ := by
      simpa using foldl_writeItem items []
    rw [h1]
    exact observeN_closed items k
  · obtain ⟨buf, fin⟩ := c
    cases buf with
    | nil => rfl
    | cons y ys => simp [readStep] at h

/-- C1 witness: the amended theorem at items = [1, 2], k = 2, with the
hypothesis discharged at the empty closed channel. -/
theorem c1_reads_observe_writes_in_order_witness :
    observeN (finishChan (List.foldl writeItem emptyChan [1, 2]))
        ([1, 2].length + 2)
      = [1, 2].map some ++ List.replicate 2 none
      ∧ (Channel.mk ([] : List Nat) true).buffer = [] :=
  c1_reads_observe_writes_in_order [1, 2] 2 ⟨[], true⟩ ⟨[], true⟩ (by decide)

/-- C2 counterexample. On an empty channel that is still open, a 100 ms timeout
of `wait_for` makes the ex02 buffering_range read report end-of-stream
(`at_end_ = true`), so the mere passage of time on an idle open channel does
cause a read to return EndOfStream in that variant. -/
theorem c2_timeout_reports_end_on_open_channel :
    readStepTimeout (emptyChan : Channel Nat) true = (none, true, emptyChan)
      ∧ (emptyChan : Channel Nat).finished = false := by decide

/-- C2 amended theorem. For the blocking variants, a read suspends exactly when
the channel is empty and open, and reports EndOfStream exactly when the channel
is empty and closed, leaving the state unchanged so the answer repeats. -/
theorem c2_blocking_read_end_iff_empty_closed (c : Channel Nat) :
    (readStep c = none ↔ c.buffer = [] ∧ c.finished = false)
      ∧ (readStep c = some (none, c) ↔ c.buffer = [] ∧ c.finished = true) := by
  obtain ⟨buf, fin⟩ := c
  cases buf <;> cases fin <;> simp [readStep]

/-- C3. With `int count = N` for N > 0, the producer's repeat_effect_until loop
whose body ends in `--count == 0` performs exactly N body executions (each one
gate-fetch-write iteration): with fuel N it terminates reporting N iterations,
and with fuel N - 1 it has not yet terminated. -/
theorem c3_repeat_until_exactly_n (n : Nat) (h : 0 < n) :
    repeatUntilZero n (n : Int) = some n
      ∧ repeatUntilZero (n - 1) (n : Int) = none := by
  obtain ⟨m, rfl⟩ : ∃ m, n = m + 1 := ⟨n - 1, by omega⟩
  refine ⟨repeatUntilZero_exact m, ?_⟩
  have h2 : m + 1 - 1 = m := by omega
  rw [h2]
  exact repeatUntilZero_none_of_lt m _ (by push_cast; omega)

/-- C3 witness: the theorem at N = 3. -/
theorem c3_repeat_until_exactly_n_witness :
    repeatUntilZero 3 ((3 : Nat) : Int) = some 3
      ∧ repeatUntilZero (3 - 1) ((3 : Nat) : Int) = none :=
  c3_repeat_until_exactly_n 3 (by decide)

/-- C4. With the backpressure gate `buffered length < K` and a single producer
that awaits the gate before every write, the buffered length never exceeds K:
for every interleaving of gated writes, consumer pops and closes starting from
the fresh channel, the resulting buffer length is at most K (and so is every
intermediate state, being `runPC` of a shorter event list). -/
theorem c4_gated_buffer_never_exceeds_capacity (K : Nat)
    (evs : List (PCEvent Nat)) : (runPC K evs).buffer.length ≤ K :=
  runPC_length_le K evs emptyChan (by simp [emptyChan])

/-- C5 counterexample. buffering_range::write pushes without checking
`finished_`: writing 7 into an empty closed channel buffers it, and the next
read observes 7 where on the unwritten channel it would observe End — the write
after close is not dropped and changes what the reader observes. -/
theorem c5_buffering_write_after_close_observed :
    (writeItem (Channel.mk ([] : List Nat) true) 7).buffer = [7]
      ∧ observeN (writeItem (Channel.mk ([] : List Nat) true) 7) 1
          ≠ observeN (Channel.mk ([] : List Nat) true) 1 := by decide

/-- C5 amended theorem. On a closed channel, producer_range::add drops the
write (the channel, hence every later observation, is unchanged), while
buffering_range::write appends the item to the buffer unconditionally. -/
theorem c5_add_drops_after_close (c : Channel Nat) (x : Nat)
    (h : c.finished = true) :
    addItem c x = c ∧ (writeItem c x).buffer = c.buffer ++ [x] :=
  ⟨by simp [addItem, h], rfl⟩

/-- C5 witness: the amended theorem at the empty closed channel and item 7. -/
theorem c5_add_drops_after_close_witness :
    addItem (Channel.mk ([] : List Nat) true) 7 = Channel.mk ([] : List Nat) true
      ∧ (writeItem (Channel.mk ([] : List Nat) true) 7).buffer
          = ([] : List Nat) ++ [7] :=
  c5_add_drops_after_close ⟨[], true⟩ 7 rfl

/-- C6 counterexample. The ex02 ondemand_range operator++ awaits the provider
unconditionally: advancing while the range's finished flag is already true still
performs one fetch, where the claim requires none. -/
theorem c6_ondemand_advance_fetches_despite_finish :
    (ondemandAdvance true (7 : Nat) ⟨none, 0⟩).fetches = 1
      ∧ (ondemandAdvance true (7 : Nat) ⟨none, 0⟩).fetches ≠ 0 := by decide

/-- C6 amended theorem. The until-predicate variant gates every fetch on the
stop predicate: a true predicate leaves the cursor unchanged with no fetch
(also over any number of repeated advances), a false predicate performs exactly
one fetch whose result becomes the current item; the ex02 variant instead
performs exactly one fetch on every advance whatever the finished flag says. -/
theorem c6_until_predicate_gates_fetch (x : Nat) (it : OndemandIter Nat)
    (k : Nat) (b : Bool) :
    moveAdvance true x it = it
      ∧ moveAdvance false x it = ⟨some x, it.fetches + 1⟩
      ∧ moveAdvanceRep true x k it = it
      ∧ ondemandAdvance b x it = ⟨some x, it.fetches + 1⟩ :=
  ⟨rfl, rfl, moveAdvanceRep_true x k it, rfl⟩

/-- C7 counterexample. Invoking the completion callback twice for the same
operation delivers two completions to the receiver and raises nothing: there is
no one-shot guard and no ProtocolViolation in the code. -/
theorem c7_double_callback_delivers_twice_no_violation :
    (onFrame (0 : Nat) (onFrame 0 ⟨[], 0⟩)).completions.length = 2
      ∧ (onFrame (0 : Nat) (onFrame 0 ⟨[], 0⟩)).violations = 0 := by decide

/-- C7 amended theorem. Every callback invocation unconditionally delivers
exactly one completion, in order, and never raises anything; and each
decode_next_frame initiation of the mock decoder schedules exactly one callback
invocation, so n initiations yield exactly n delivered completions. -/
theorem c7_each_invocation_delivers_exactly_once (frames : List Nat)
    (s : BridgeObs Nat) (n : Nat) :
    (runCallbacks frames s).completions = s.completions ++ frames
      ∧ (runCallbacks frames s).violations = s.violations
      ∧ (runCallbacks (initiateAll n ⟨0⟩) ⟨[], 0⟩).completions.length = n := by
  refine ⟨by rw [runCallbacks_spec], by rw [runCallbacks_spec], ?_⟩
  rw [runCallbacks_spec]
  simp [initiateAll_length]

/-- C9 counterexample. Comparing a cursor that has reached End (empty
`current_`) against a cursor still holding an item falls through to
`*lhs.current_ == *rhs.current_` and dereferences an empty optional, in both the
producer/ondemand form and the buffering form with `at_end_`. -/
theorem c9_end_vs_item_comparison_hits_empty_optional :
    iterEq 0 0 none (some 0) = none
      ∧ bufIterEq 0 0 true false none (some 3) = none := by decide

/-- C9 amended theorem. The iterator equality is well-defined exactly on two
shapes: both cursors hold items (the items are compared, the parents ignored),
or the left disjunct holds (equal parents with both items absent); either
mixed shape dereferences an empty optional. -/
theorem c9_comparison_defined_domains (pl pr a b : Nat) :
    iterEq pl pr (some a) (some b) = some (decide (a = b))
      ∧ iterEq pl pl none none = some true
      ∧ iterEq pl pr none (some b) = none
      ∧ iterEq pl pr (some a) none = none := by
  refine ⟨?_, ?_, ?_, ?_⟩ <;> simp [iterEq]

/-- C10. On a fresh mock decoder, the n-th decode_next_frame invocation
(counting from 0) delivers a frame of index n with data
[(4n) mod 256, (4n+1) mod 256, (4n+2) mod 256, (4n+3) mod 256], and the
indices of successive invocations come in invocation order 0, 1, ..., n-1. -/
theorem c10_nth_frame_index_and_data (n : Nat) :
    nthFrame n
        = ⟨n, [4 * n % 256, (4 * n + 1) % 256, (4 * n + 2) % 256,
               (4 * n + 3) % 256]⟩
      ∧ (initiateAll n ⟨0⟩).map Frame.index = List.range n := by
  constructor
  · have h := decodeIter_index n ⟨0⟩
    simp only [nthFrame, decodeNextFrame, h]
    simp [Nat.mod_add_mod]
  · rw [initiateAll_map_index n ⟨0⟩]
    simp [List.range_eq_range']
